import Mathlib

/-!
Verification development for the banai session store (package infra).

The embedding models the Go file src/infra/infra.go. Filesystem effects
(os.Stat, os.RemoveAll, os.MkdirAll, ioutil.ReadFile, ioutil.WriteFile)
are made explicit by passing a filesystem state value through each
operation. Absolute paths are represented as their lists of components
from the root; path strings handed to filepath.Join or filepath.Abs are
split on the separator and cleaned exactly as Go path/filepath does for
the inputs that arise here (dot and dot-dot elimination on an absolute
base). Machine randomness (uuid.NewString) and the process working
directory (used by filepath.Abs) are passed in as parameters.
-/

namespace Infra

/-- Split a path string on the separator character, dropping empty
components, as Go filepath splitting does before cleaning. Structural
recursion over the character list so that the kernel can evaluate it. -/
def splitPathAux : List Char → List Char → List String
  | acc, [] => if acc.isEmpty then [] else [String.mk acc.reverse]
  | acc, c :: rest =>
    if c = '/' then
      if acc.isEmpty then splitPathAux [] rest
      else String.mk acc.reverse :: splitPathAux [] rest
    else splitPathAux (c :: acc) rest

/-- Components of a path string. -/
def splitPath (s : String) : List String := splitPathAux [] s.data

/-- Lexical cleaning of a component list over an accumulator, as Go
filepath.Clean does for an absolute path: a dot component is dropped, a
dot-dot component removes the previous component (or is dropped at the
root), every other component is kept. -/
def cleanPath : List String → List String → List String
  | acc, [] => acc.reverse
  | acc, c :: rest =>
    if c = "." then cleanPath acc rest
    else if c = ".." then cleanPath acc.tail rest
    else cleanPath (c :: acc) rest

/-- Go filepath.Join of an absolute directory (already in component
form) with a relative path string: concatenate, then clean. -/
def joinPath (dir : List String) (s : String) : List String :=
  cleanPath [] (dir ++ splitPath s)

/-- Go filepath.Abs relative to the process working directory `cwd`
(component form). Abs only fails when the working directory cannot be
read, which the model excludes, so it is total here. -/
def absPath (cwd : List String) (s : String) : List String :=
  match s.data with
  | '/' :: _ => cleanPath [] (splitPath s)
  | _ => cleanPath [] (cwd ++ splitPath s)

/-- A node of the modelled filesystem: a regular file with its content,
a readability flag (modelling external permission interference that
makes a read fail), and the permission bits it was created with; or a
directory. -/
inductive FsNode where
  | file (content : String) (readable : Bool) (perm : Nat)
  | dir
  deriving DecidableEq, Repr

/-- Errors surfaced by the Go code: the package-level ErrSecretNotFound
value and generic operating-system I/O errors. -/
inductive GoErr where
  | errSecretNotFound
  | ioError (msg : String)
  deriving DecidableEq, Repr

/-- The filesystem state: an association list from absolute paths to
nodes (first binding wins), plus the set of paths at which a write
fails, modelling external I/O failure. -/
structure Fs where
  entries : List (List String × FsNode)
  failWrites : List (List String)
  deriving DecidableEq, Repr

/-- First-match lookup in the entry list. -/
def lookupFs : List (List String × FsNode) → List String → Option FsNode
  | [], _ => none
  | (k, n) :: rest, p => if k = p then some n else lookupFs rest p

/-- os.Stat: the node at a path, if any. -/
def fsStat (fs : Fs) (p : List String) : Option FsNode := lookupFs fs.entries p

/-- Bind a path to a node, shadowing any previous binding. -/
def fsInsert (fs : Fs) (p : List String) (n : FsNode) : Fs :=
  { fs with entries := (p, n) :: fs.entries }

/-- Whether the first component list is an initial segment of the
second, i.e. the first path is the second or an ancestor of it. -/
def underPath : List String → List String → Bool
  | [], _ => true
  | _ :: _, [] => false
  | a :: as, b :: bs => if a = b then underPath as bs else false

/-- os.RemoveAll: delete the path and everything below it. -/
def fsRemoveAll (fs : Fs) (p : List String) : Fs :=
  { fs with entries := fs.entries.filter (fun e => !(underPath p e.1)) }

/-- The nonempty initial segments of a path, shortest first. -/
def ancestors : List String → List (List String)
  | [] => []
  | c :: rest => [c] :: (ancestors rest).map (fun q => c :: q)

/-- os.MkdirAll: create the directory and all its ancestors. -/
def fsMkdirAll (fs : Fs) (p : List String) : Fs :=
  { fs with entries := (ancestors p).map (fun q => (q, FsNode.dir)) ++ fs.entries }

/-- Membership of a path in a path list. -/
def pathInList : List (List String) → List String → Bool
  | [], _ => false
  | q :: rest, p => if q = p then true else pathInList rest p

/-- ioutil.WriteFile: fails at a path marked as failing or when the
parent directory is missing; truncates an existing regular file keeping
its creation permission; otherwise creates the file with the requested
permission bits. -/
def fsWriteFile (fs : Fs) (p : List String) (content : String) (perm : Nat) :
    Except GoErr Fs :=
  if pathInList fs.failWrites p then Except.error (GoErr.ioError "write failed")
  else
    match fsStat fs p.dropLast with
    | some FsNode.dir =>
      match fsStat fs p with
      | some (FsNode.file _ r oldPerm) =>
        Except.ok (fsInsert fs p (FsNode.file content r oldPerm))
      | some FsNode.dir => Except.error (GoErr.ioError "is a directory")
      | none => Except.ok (fsInsert fs p (FsNode.file content true perm))
    | _ => Except.error (GoErr.ioError "no such file or directory")

/-- ioutil.ReadFile: the content of a readable regular file, an error
otherwise. -/
def fsReadFile (fs : Fs) (p : List String) : Except GoErr String :=
  match fsStat fs p with
  | some (FsNode.file c true _) => Except.ok c
  | some (FsNode.file _ false _) => Except.error (GoErr.ioError "permission denied")
  | some FsNode.dir => Except.error (GoErr.ioError "is a directory")
  | none => Except.error (GoErr.ioError "no such file or directory")

/-- Modelled from the spec: the three secret variants (secretText,
secretSSHWithPrivate, secretUserPassword) are declared in the infra
package outside the provided source file. Their field shapes are forced
by the composite literals and type assertions in infra.go, and the spec
fixes the variant set to exactly Text, SSHPrivateKey and UserPassword. -/
inductive secretStruct where
  | secretText (text : String)
  | secretSSHWithPrivate (user : String) (privateKey : String) (passphrase : String)
  | secretUserPassword (user : String) (password : String)
  deriving DecidableEq, Repr

/-- Modelled from the spec: the GetType method of each variant, forced
by the switch in Banai.GetSecret whose branches type-assert the
corresponding variant. -/
def secretStruct.GetType : secretStruct → String
  | secretStruct.secretText _ => "text"
  | secretStruct.secretSSHWithPrivate _ _ _ => "ssh"
  | secretStruct.secretUserPassword _ _ => "userpass"

/-- The caller-facing secret views TextSecret, SSHWithPrivate and
UserPassword of infra.go, as one closed sum. The SSH view carries the
path of the materialized key file (component form). -/
inductive SecretInfo where
  | TextSecret (text : String)
  | SSHWithPrivate (user : String) (privatekeyFile : List String) (passfrase : String)
  | UserPassword (user : String) (password : String)
  deriving DecidableEq, Repr

/-- The Banai session value: the session root, the two component
folders, and the in-memory secret map (association list with in-place
update, mirroring the Go map). -/
structure Banai where
  tmpDir : List String
  stashFolder : List String
  secretFolder : List String
  secrets : List (String × secretStruct)
  deriving DecidableEq, Repr

/-- Go map assignment m[k] = v: replace the binding in place, append if
absent. -/
def setSecret : List (String × secretStruct) → String → secretStruct →
    List (String × secretStruct)
  | [], k, v => [(k, v)]
  | (k2, v2) :: rest, k, v =>
    if k2 = k then (k, v) :: rest else (k2, v2) :: setSecret rest k v

/-- Go map read m[k]. -/
def lookupSecret : List (String × secretStruct) → String → Option secretStruct
  | [], _ => none
  | (k2, v2) :: rest, k => if k2 = k then some v2 else lookupSecret rest k

/-- NewBanai: derive the session root as Abs of the fixed relative name
.banai, remove and recreate the stash folder, then remove and recreate
the secret folder, and start with an empty secret map. -/
def NewBanai (cwd : List String) (fs : Fs) : Banai × Fs :=
  let tmpDir := absPath cwd "./.banai"
  let stashFolder := joinPath tmpDir "stash"
  let secretFolder := joinPath tmpDir "sec"
  let fs1 := fsRemoveAll fs stashFolder
  let fs2 := fsMkdirAll fs1 stashFolder
  let fs3 := fsRemoveAll fs2 secretFolder
  let fs4 := fsMkdirAll fs3 secretFolder
  ({ tmpDir := tmpDir, stashFolder := stashFolder,
     secretFolder := secretFolder, secrets := [] }, fs4)

/-- Banai.Close: remove the whole session root. The receiver is a value
and no closed flag exists, so the session value itself is unchanged. -/
def Banai.Close (b : Banai) (fs : Fs) : Fs := fsRemoveAll fs b.tmpDir

/-- Modelled from the spec: utils/fsutils.CopyfsItem is the file-copy
utility of the repository, outside the provided source file. Per the
spec it duplicates the filesystem item at the source path to the
destination path, recursing over a directory tree; a relative
destination string resolves against the process working directory, and
a missing source or a failing write is an error. -/
def CopyfsItem (cwd : List String) (fs : Fs) (src : List String) (dst : String) :
    Except GoErr Fs :=
  let dstPath := absPath cwd dst
  match fsStat fs src with
  | none => Except.error (GoErr.ioError "source does not exist")
  | some (FsNode.file c _ perm) => fsWriteFile fs dstPath c perm
  | some FsNode.dir =>
    Except.ok { fs with entries :=
      (fs.entries.filterMap (fun e =>
        if underPath src e.1 then some (dstPath ++ e.1.drop src.length, e.2)
        else none)) ++ fs.entries }

/-- The error surface of Banai.Save. -/
inductive SaveErr where
  | copyFailed (e : GoErr)
  deriving DecidableEq, Repr

/-- Banai.Save: resolve the file name to an absolute path, draw a fresh
stash identifier (passed in as `stashID`, standing for uuid.NewString),
and copy the item there. The destination handed to CopyfsItem is the
bare identifier string, exactly as in the source. -/
def Banai.Save (_b : Banai) (cwd : List String) (fs : Fs) (fileName : String)
    (stashID : String) : Except SaveErr (String × Fs) :=
  let abs := absPath cwd fileName
  match CopyfsItem cwd fs abs stashID with
  | Except.error e => Except.error (SaveErr.copyFailed e)
  | Except.ok fs2 => Except.ok (stashID, fs2)

/-- The error surface of Banai.Load: the os.Stat failure (no entry) and
the ioutil.ReadFile failure, kept distinct as the code returns the
respective underlying errors. -/
inductive LoadErr where
  | notFound
  | readFailed
  deriving DecidableEq, Repr

/-- Banai.Load: join the stash folder with the identifier, probe with
os.Stat, then read the file. -/
def Banai.Load (b : Banai) (fs : Fs) (stashID : String) : Except LoadErr String :=
  let path := joinPath b.stashFolder stashID
  match fsStat fs path with
  | none => Except.error LoadErr.notFound
  | some _ =>
    match fsReadFile fs path with
    | Except.ok c => Except.ok c
    | Except.error _ => Except.error LoadErr.readFailed

/-- Banai.AddStringSecret: store a Text secret in the map. No
filesystem effect. -/
def Banai.AddStringSecret (b : Banai) (fs : Fs) (secretID : String)
    (value : String) : Banai × Fs :=
  ({ b with secrets := setSecret b.secrets secretID (secretStruct.secretText value) },
   fs)

/-- Banai.AddSSHWithPrivate: store an SSH secret in the map. No
filesystem effect; the key material stays in memory. -/
def Banai.AddSSHWithPrivate (b : Banai) (fs : Fs) (secretID : String)
    (user : String) (privateKey : String) (passphrase : String) : Banai × Fs :=
  let s := secretStruct.secretSSHWithPrivate user privateKey passphrase
  ({ b with secrets := setSecret b.secrets secretID s }, fs)

/-- Banai.AddUserPassword: store a user-password secret in the map. No
filesystem effect. -/
def Banai.AddUserPassword (b : Banai) (fs : Fs) (secretID : String)
    (user : String) (password : String) : Banai × Fs :=
  let s := secretStruct.secretUserPassword user password
  ({ b with secrets := setSecret b.secrets secretID s }, fs)

/-- Banai.GetSecret: look the identifier up in the map; absent gives
ErrSecretNotFound. Text and UserPassword variants are returned directly.
The SSH variant first writes the key material to Join(secretFolder, id)
with the literal permission argument 600 of the source (decimal, not
octal); a write failure is folded into ErrSecretNotFound. -/
def Banai.GetSecret (b : Banai) (fs : Fs) (secretID : String) :
    Except GoErr (SecretInfo × Fs) :=
  match lookupSecret b.secrets secretID with
  | none => Except.error GoErr.errSecretNotFound
  | some v =>
    match v with
    | secretStruct.secretText t => Except.ok (SecretInfo.TextSecret t, fs)
    | secretStruct.secretSSHWithPrivate u k pp =>
      let fn := joinPath b.secretFolder secretID
      match fsWriteFile fs fn k 600 with
      | Except.error _ => Except.error GoErr.errSecretNotFound
      | Except.ok fs2 => Except.ok (SecretInfo.SSHWithPrivate u fn pp, fs2)
    | secretStruct.secretUserPassword u p =>
      Except.ok (SecretInfo.UserPassword u p, fs)

/-- Whether a permission value keeps all group and other bits clear,
i.e. restricts access to the owning user. -/
def permOwnerOnly (perm : Nat) : Bool := perm % 64 = 0

/-- A component list containing no dot and no dot-dot component. -/
def noDots (xs : List String) : Prop := ∀ c ∈ xs, c ≠ "." ∧ c ≠ ".."

/-- Concrete working directory fixture: a directory w holding the file
a.txt with content hello. -/
def fsW0 : Fs :=
  { entries := [(["w"], FsNode.dir), (["w", "a.txt"], FsNode.file "hello" true 420)],
    failWrites := [] }

/-- Session fixture built over fsW0. -/
def bS : Banai := (NewBanai ["w"] fsW0).1

/-- Filesystem state after constructing the session over fsW0. -/
def fsS1 : Fs := (NewBanai ["w"] fsW0).2

/-- Filesystem state after Save of a.txt under the handle u1: the copy
lands at the path w, u1 next to the session root, not in the stash. -/
def fsS2 : Fs := fsInsert fsS1 ["w", "u1"] (FsNode.file "hello" true 420)

/-- Session fixture with one stored SSH secret under the key mykey. -/
def bE : Banai :=
  { tmpDir := ["w", ".banai"], stashFolder := ["w", ".banai", "stash"],
    secretFolder := ["w", ".banai", "sec"],
    secrets := [("mykey", secretStruct.secretSSHWithPrivate "bob" "SECRETKEY" "pp")] }

/-- Freshly provisioned session directories for bE. -/
def fsE0 : Fs :=
  { entries := [(["w"], FsNode.dir), (["w", ".banai"], FsNode.dir),
      (["w", ".banai", "stash"], FsNode.dir), (["w", ".banai", "sec"], FsNode.dir)],
    failWrites := [] }

/-- fsE0 after the SSH key file has been materialized once. -/
def fsE1 : Fs :=
  fsInsert fsE0 ["w", ".banai", "sec", "mykey"] (FsNode.file "SECRETKEY" true 600)

/-- fsE1 after the SSH key file has been materialized a second time. -/
def fsE2 : Fs :=
  fsInsert fsE1 ["w", ".banai", "sec", "mykey"] (FsNode.file "SECRETKEY" true 600)

/-- fsE1 with an additional stash entry h1 holding data. -/
def fsL1 : Fs :=
  fsInsert fsE1 ["w", ".banai", "stash", "h1"] (FsNode.file "data" true 384)

/-- fsL1 with an additional unreadable stash entry named locked. -/
def fsL2 : Fs :=
  fsInsert fsL1 ["w", ".banai", "stash", "locked"] (FsNode.file "x" false 384)

/-- Session fixture holding a Text secret t under the key a. -/
def bT : Banai :=
  ((NewBanai ["w"] fsW0).1.AddStringSecret (NewBanai ["w"] fsW0).2 "a" "t").1

/-- Filesystem state accompanying bT before Close. -/
def fsT1 : Fs :=
  ((NewBanai ["w"] fsW0).1.AddStringSecret (NewBanai ["w"] fsW0).2 "a" "t").2

/-- Filesystem state after Close of bT. -/
def fsT2 : Fs := Banai.Close bT fsT1

/-- Leftover filesystem state of a session that crashed without Close:
a stale stash entry old and a stale secret file oldkey survive under
the fixed session paths. -/
def fsCrash : Fs :=
  { entries := [(["w"], FsNode.dir), (["w", ".banai"], FsNode.dir),
      (["w", ".banai", "stash"], FsNode.dir), (["w", ".banai", "sec"], FsNode.dir),
      (["w", ".banai", "stash", "old"], FsNode.file "olddata" true 384),
      (["w", ".banai", "sec", "oldkey"], FsNode.file "OLDKEY" true 384)],
    failWrites := [] }

/-- Reading back the binding just written by a Go map assignment. -/
theorem lookup_setSecret_self (m : List (String × secretStruct)) (k : String)
    (v : secretStruct) : lookupSecret (setSecret m k v) k = some v := by
  induction m with
  | nil => simp [setSecret, lookupSecret]
  | cons e rest ih =>
    obtain ⟨k2, v2⟩ := e
    by_cases h : k2 = k
    · simp [setSecret, lookupSecret, h]
    · simp [setSecret, lookupSecret, h, ih]

/-- Every path is under itself. -/
theorem underPath_refl (p : List String) : underPath p p = true := by
  induction p with
  | nil => rfl
  | cons c rest ih => simp [underPath, ih]

/-- A path is under each of its initial segments. -/
theorem underPath_append (d q : List String) : underPath d (d ++ q) = true := by
  induction d with
  | nil => rfl
  | cons c rest ih => simp [underPath, ih]

/-- A path under d is d extended by some suffix. -/
theorem underPath_exists (d p : List String) (h : underPath d p = true) :
    ∃ q, p = d ++ q := by
  induction d generalizing p with
  | nil => exact ⟨p, rfl⟩
  | cons c rest ih =>
    cases p with
    | nil => simp [underPath] at h
    | cons b bs =>
      by_cases hc : c = b
      · subst hc
        simp [underPath] at h
        obtain ⟨q, hq⟩ := ih bs h
        exact ⟨q, by simp [hq]⟩
      · simp [underPath, hc] at h

/-- Filtering preserves a failed lookup. -/
theorem lookupFs_filter_none (l : List (List String × FsNode)) (p : List String)
    (f : List String × FsNode → Bool) (h : lookupFs l p = none) :
    lookupFs (l.filter f) p = none := by
  induction l with
  | nil => rfl
  | cons e rest ih =>
    obtain ⟨k, n⟩ := e
    by_cases hk : k = p
    · simp [lookupFs, hk] at h
    · simp only [lookupFs, if_neg hk] at h
      by_cases hf : f (k, n)
      · simp only [List.filter_cons, hf, if_pos, lookupFs, if_neg hk]
        exact ih h
      · simp only [List.filter_cons, hf]
        simp only [Bool.false_eq_true, if_neg]
        exact ih h

/-- After filtering out everything under d, a lookup under d fails. -/
theorem lookupFs_filter_underPath (l : List (List String × FsNode)) (d p : List String)
    (h : underPath d p = true) :
    lookupFs (l.filter (fun e => !(underPath d e.1))) p = none := by
  induction l with
  | nil => rfl
  | cons e rest ih =>
    obtain ⟨k, n⟩ := e
    by_cases hk : k = p
    · subst hk
      simp only [List.filter_cons, h, Bool.not_true, Bool.false_eq_true, if_neg]
      exact ih
    · by_cases hu : underPath d k
      · simp only [List.filter_cons, hu, Bool.not_true, Bool.false_eq_true, if_neg]
        exact ih
      · simp only [List.filter_cons, Bool.not_eq_true] at hu ⊢
        simp only [hu, Bool.not_false, if_pos, lookupFs, if_neg hk]
        exact ih

/-- os.RemoveAll removes the target and everything below it. -/
theorem fsStat_removeAll_under (fs : Fs) (d p : List String)
    (h : underPath d p = true) : fsStat (fsRemoveAll fs d) p = none :=
  lookupFs_filter_underPath fs.entries d p h

/-- os.RemoveAll never resurrects a missing path. -/
theorem fsStat_removeAll_none (fs : Fs) (d p : List String)
    (h : fsStat fs p = none) : fsStat (fsRemoveAll fs d) p = none :=
  lookupFs_filter_none fs.entries p _ h

/-- Prepending bindings whose keys differ from p leaves a lookup of p
unchanged. -/
theorem lookupFs_append_ne (l1 l2 : List (List String × FsNode)) (p : List String)
    (h : ∀ e ∈ l1, e.1 ≠ p) :
    lookupFs (l1 ++ l2) p = lookupFs l2 p := by
  induction l1 with
  | nil => rfl
  | cons e rest ih =>
    obtain ⟨k, n⟩ := e
    have hk : k ≠ p := h (k, n) (List.mem_cons_self _ _)
    simp only [List.cons_append, lookupFs, if_neg hk]
    exact ih (fun e2 he2 => h e2 (List.mem_cons_of_mem _ he2))

/-- Every ancestor of a path is at most as long as the path. -/
theorem ancestors_length_le (d : List String) :
    ∀ q ∈ ancestors d, q.length ≤ d.length := by
  induction d with
  | nil => intro q hq; simp [ancestors] at hq
  | cons c rest ih =>
    intro q hq
    simp only [ancestors, List.mem_cons, List.mem_map] at hq
    rcases hq with rfl | ⟨q2, hq2, rfl⟩
    · simp
    · simpa using ih q2 hq2

/-- os.MkdirAll only touches paths no longer than its argument. -/
theorem fsStat_mkdirAll_longer (fs : Fs) (d p : List String)
    (h : d.length < p.length) : fsStat (fsMkdirAll fs d) p = fsStat fs p := by
  show lookupFs ((ancestors d).map (fun q => (q, FsNode.dir)) ++ fs.entries) p = _
  apply lookupFs_append_ne
  intro e he
  simp only [List.mem_map] at he
  obtain ⟨q, hq, rfl⟩ := he
  intro hqp
  have hle := ancestors_length_le d q hq
  have hqp2 : q = p := hqp
  rw [hqp2] at hle
  omega

/-- Appending preserves dot-freeness. -/
theorem noDots_append (xs ys : List String) (hx : noDots xs) (hy : noDots ys) :
    noDots (xs ++ ys) := by
  intro c hc
  rcases List.mem_append.1 hc with h | h
  · exact hx c h
  · exact hy c h

/-- cleanPath is the identity on dot-free input. -/
theorem cleanPath_of_noDots (xs : List String) (hx : noDots xs) :
    ∀ acc, cleanPath acc xs = acc.reverse ++ xs := by
  induction xs with
  | nil => intro acc; simp [cleanPath]
  | cons c rest ih =>
    intro acc
    have hc := hx c (List.mem_cons_self _ _)
    have hrest : noDots rest := fun d hd => hx d (List.mem_cons_of_mem _ hd)
    simp only [cleanPath, if_neg hc.1, if_neg hc.2]
    rw [ih hrest (c :: acc)]
    simp

/-- Output of cleanPath over a dot-free accumulator is dot-free. -/
theorem noDots_cleanPath (l : List String) :
    ∀ acc, noDots acc → noDots (cleanPath acc l) := by
  induction l with
  | nil =>
    intro acc h c hc
    exact h c (List.mem_reverse.1 hc)
  | cons x rest ih =>
    intro acc h
    by_cases h1 : x = "."
    · simp only [cleanPath, if_pos h1]
      exact ih acc h
    · by_cases h2 : x = ".."
      · simp only [cleanPath, if_neg h1, if_pos h2]
        exact ih acc.tail (fun c hc => h c (List.mem_of_mem_tail hc))
      · simp only [cleanPath, if_neg h1, if_neg h2]
        refine ih (x :: acc) (fun c hc => ?_)
        rcases List.mem_cons.1 hc with rfl | hc2
        · exact ⟨h1, h2⟩
        · exact h c hc2

/-- The session root derived by NewBanai is a dot-free component list. -/
theorem noDots_tmpDir (cwd : List String) (fs : Fs) :
    noDots ((NewBanai cwd fs).1.tmpDir) := by
  show noDots (cleanPath [] (cwd ++ [".", ".banai"]))
  exact noDots_cleanPath _ [] (fun c hc => absurd hc (List.not_mem_nil c))

/-- The stash folder is the session root extended by the component
stash. -/
theorem NewBanai_stashFolder (cwd : List String) (fs : Fs) :
    (NewBanai cwd fs).1.stashFolder = (NewBanai cwd fs).1.tmpDir ++ ["stash"] := by
  show cleanPath [] ((NewBanai cwd fs).1.tmpDir ++ ["stash"]) = _
  have hd : noDots ((NewBanai cwd fs).1.tmpDir ++ ["stash"]) := by
    refine noDots_append _ _ (noDots_tmpDir cwd fs) (fun c hc => ?_)
    rcases List.mem_singleton.1 hc with rfl
    exact ⟨by decide, by decide⟩
  rw [cleanPath_of_noDots _ hd []]
  simp

/-- The secret folder is the session root extended by the component
sec. -/
theorem NewBanai_secretFolder (cwd : List String) (fs : Fs) :
    (NewBanai cwd fs).1.secretFolder = (NewBanai cwd fs).1.tmpDir ++ ["sec"] := by
  show cleanPath [] ((NewBanai cwd fs).1.tmpDir ++ ["sec"]) = _
  have hd : noDots ((NewBanai cwd fs).1.tmpDir ++ ["sec"]) := by
    refine noDots_append _ _ (noDots_tmpDir cwd fs) (fun c hc => ?_)
    rcases List.mem_singleton.1 hc with rfl
    exact ⟨by decide, by decide⟩
  rw [cleanPath_of_noDots _ hd []]
  simp

/-- The filesystem returned by NewBanai, written as the remove and
recreate pipeline over the two folders. -/
theorem NewBanai_snd (cwd : List String) (fs : Fs) :
    (NewBanai cwd fs).2 =
      fsMkdirAll
        (fsRemoveAll
          (fsMkdirAll (fsRemoveAll fs ((NewBanai cwd fs).1.tmpDir ++ ["stash"]))
            ((NewBanai cwd fs).1.tmpDir ++ ["stash"]))
          ((NewBanai cwd fs).1.tmpDir ++ ["sec"]))
        ((NewBanai cwd fs).1.tmpDir ++ ["sec"]) := by
  have h1 := NewBanai_stashFolder cwd fs
  have h2 := NewBanai_secretFolder cwd fs
  show fsMkdirAll
      (fsRemoveAll
        (fsMkdirAll (fsRemoveAll fs ((NewBanai cwd fs).1.stashFolder))
          ((NewBanai cwd fs).1.stashFolder))
        ((NewBanai cwd fs).1.secretFolder))
      ((NewBanai cwd fs).1.secretFolder) = _
  rw [h1, h2]

/-- After the remove and recreate pipeline, nothing is left strictly
below the stash folder. -/
theorem setup_stat_none (fs : Fs) (tmp p : List String)
    (hup : underPath (tmp ++ ["stash"]) p = true) (hne : p ≠ tmp ++ ["stash"]) :
    fsStat
      (fsMkdirAll
        (fsRemoveAll
          (fsMkdirAll (fsRemoveAll fs (tmp ++ ["stash"])) (tmp ++ ["stash"]))
          (tmp ++ ["sec"]))
        (tmp ++ ["sec"])) p = none := by
  obtain ⟨q, rfl⟩ := underPath_exists _ _ hup
  have hq : q ≠ [] := by rintro rfl; simp at hne
  have hq1 : 1 ≤ q.length := by
    cases q with
    | nil => exact absurd rfl hq
    | cons a as => simp
  have hlen : (tmp ++ ["stash"]).length < ((tmp ++ ["stash"]) ++ q).length := by
    simp only [List.length_append, List.length_singleton]
    omega
  have hlen2 : (tmp ++ ["sec"]).length < ((tmp ++ ["stash"]) ++ q).length := by
    simp only [List.length_append, List.length_singleton]
    omega
  rw [fsStat_mkdirAll_longer _ _ _ hlen2]
  apply fsStat_removeAll_none
  rw [fsStat_mkdirAll_longer _ _ _ hlen]
  exact fsStat_removeAll_under _ _ _ (underPath_append _ _)

/-- After removing and recreating a folder, nothing is left strictly
below it. -/
theorem setup_stat_none_tail (g : Fs) (sec p : List String)
    (hup : underPath sec p = true) (hne : p ≠ sec) :
    fsStat (fsMkdirAll (fsRemoveAll g sec) sec) p = none := by
  obtain ⟨q, rfl⟩ := underPath_exists _ _ hup
  have hq : q ≠ [] := by rintro rfl; simp at hne
  have hq1 : 1 ≤ q.length := by
    cases q with
    | nil => exact absurd rfl hq
    | cons a as => simp
  have hlen : sec.length < (sec ++ q).length := by
    simp only [List.length_append]
    omega
  rw [fsStat_mkdirAll_longer _ _ _ hlen]
  exact fsStat_removeAll_under _ _ _ (underPath_append _ _)

/-- Claim C1: the claim says a successful Save of a path p yields a
handle h whose copy lies in the stash root under h and whose Load
returns the saved bytes. The code instead hands the bare handle string
to the copy utility, so the copy lands next to the session root in the
working directory, the stash root stays empty, and Load of the returned
handle fails with the not-found error. Evaluated here at the concrete
working directory w containing a.txt with content hello. -/
theorem c1_bug :
    Banai.Save bS ["w"] fsS1 "a.txt" "u1" = Except.ok ("u1", fsS2) ∧
    fsStat fsS2 ["w", "u1"] = some (FsNode.file "hello" true 420) ∧
    fsStat fsS2 (joinPath bS.stashFolder "u1") = none ∧
    Banai.Load bS fsS2 "u1" = Except.error LoadErr.notFound :=
  ⟨rfl, rfl, rfl, rfl⟩

/-- Claim C2: the claim says GetSecret on an SSH secret writes the key
file with permissions restricted to the owning user. The code does
write the key material to the file named by the identifier in the
secret folder, returns the stored user and passphrase with that path,
and reading the file yields the key on every repeated call; but the
permission argument is the decimal literal 600, which is octal 1130 and
grants group write and execute, so the file is not owner-only (the
intended octal 0600 is decimal 384, which is owner-only). -/
theorem c2_bug :
    Banai.GetSecret bE fsE0 "mykey" =
      Except.ok (SecretInfo.SSHWithPrivate "bob" ["w", ".banai", "sec", "mykey"] "pp", fsE1) ∧
    fsStat fsE1 ["w", ".banai", "sec", "mykey"] = some (FsNode.file "SECRETKEY" true 600) ∧
    fsReadFile fsE1 ["w", ".banai", "sec", "mykey"] = Except.ok "SECRETKEY" ∧
    Banai.GetSecret bE fsE1 "mykey" =
      Except.ok (SecretInfo.SSHWithPrivate "bob" ["w", ".banai", "sec", "mykey"] "pp", fsE2) ∧
    fsReadFile fsE2 ["w", ".banai", "sec", "mykey"] = Except.ok "SECRETKEY" ∧
    permOwnerOnly 600 = false ∧
    permOwnerOnly 384 = true :=
  ⟨rfl, rfl, rfl, rfl, rfl, rfl, rfl⟩

/-- Claim C3, counterexample: the claim says every GetSecret, Save or
Load after Close fails with a SessionClosed error. The code keeps no
closed flag, so after Close the session still serves its in-memory Text
secret successfully, even though the session root is gone from disk. -/
theorem c3_counterexample :
    Banai.GetSecret bT fsT2 "a" = Except.ok (SecretInfo.TextSecret "t", fsT2) ∧
    fsStat fsT2 bT.tmpDir = none :=
  ⟨rfl, rfl⟩

/-- Claim C3, amended: after Close the session-root directory no longer
exists on disk, but subsequent calls are not rejected with a
SessionClosed error: GetSecret on a stored Text secret still succeeds,
returning the text, because the secret map lives in memory. -/
theorem c3_amended (b : Banai) (fs : Fs) (id t : String)
    (hl : lookupSecret b.secrets id = some (secretStruct.secretText t)) :
    fsStat (Banai.Close b fs) b.tmpDir = none ∧
    Banai.GetSecret b (Banai.Close b fs) id =
      Except.ok (SecretInfo.TextSecret t, Banai.Close b fs) := by
  constructor
  · exact fsStat_removeAll_under _ _ _ (underPath_refl _)
  · simp [Banai.GetSecret, hl]

/-- Witness for the amended Claim C3 at the concrete session bT holding
the Text secret t under the key a. -/
theorem c3_amended_witness :
    fsStat (Banai.Close bT fsT1) bT.tmpDir = none ∧
    Banai.GetSecret bT (Banai.Close bT fsT1) "a" =
      Except.ok (SecretInfo.TextSecret "t", Banai.Close bT fsT1) :=
  c3_amended bT fsT1 "a" "t" rfl

/-- Claim C4: GetSecret fails exactly when the identifier is absent
from the secret map or the stored secret is the SSH variant and writing
its key file fails, and the error returned is always the package-level
secret-not-found error, never a distinct I/O error. -/
theorem c4 (b : Banai) (fs : Fs) (id : String) :
    (∀ e, Banai.GetSecret b fs id = Except.error e → e = GoErr.errSecretNotFound) ∧
    ((∃ e, Banai.GetSecret b fs id = Except.error e) ↔
      (lookupSecret b.secrets id = none ∨
        ∃ u k pp,
          lookupSecret b.secrets id = some (secretStruct.secretSSHWithPrivate u k pp) ∧
          ∃ e2, fsWriteFile fs (joinPath b.secretFolder id) k 600 = Except.error e2)) := by
  cases hl : lookupSecret b.secrets id with
  | none =>
    refine ⟨fun e he => ?_, ⟨fun _ => Or.inl rfl, fun _ => ?_⟩⟩
    · simp [Banai.GetSecret, hl] at he
      exact he.symm
    · exact ⟨GoErr.errSecretNotFound, by simp [Banai.GetSecret, hl]⟩
  | some v =>
    cases v with
    | secretText t =>
      refine ⟨fun e he => ?_, ⟨fun he => ?_, fun hr => ?_⟩⟩
      · simp [Banai.GetSecret, hl] at he
      · obtain ⟨e, he⟩ := he
        simp [Banai.GetSecret, hl] at he
      · rcases hr with h1 | ⟨u, k, pp, h2, _⟩
        · cases h1
        · cases h2
    | secretSSHWithPrivate u k pp =>
      cases hw : fsWriteFile fs (joinPath b.secretFolder id) k 600 with
      | error e2 =>
        refine ⟨fun e he => ?_, ⟨fun _ => ?_, fun _ => ?_⟩⟩
        · simp [Banai.GetSecret, hl, hw] at he
          exact he.symm
        · exact Or.inr ⟨u, k, pp, rfl, e2, hw⟩
        · exact ⟨GoErr.errSecretNotFound, by simp [Banai.GetSecret, hl, hw]⟩
      | ok fs2 =>
        refine ⟨fun e he => ?_, ⟨fun he => ?_, fun hr => ?_⟩⟩
        · simp [Banai.GetSecret, hl, hw] at he
        · obtain ⟨e, he⟩ := he
          simp [Banai.GetSecret, hl, hw] at he
        · rcases hr with h1 | ⟨u2, k2, pp2, h2, e2, hw2⟩
          · cases h1
          · simp only [Option.some.injEq, secretStruct.secretSSHWithPrivate.injEq] at h2
            obtain ⟨-, rfl, -⟩ := h2
            rw [hw] at hw2
            cases hw2
    | secretUserPassword u p =>
      refine ⟨fun e he => ?_, ⟨fun he => ?_, fun hr => ?_⟩⟩
      · simp [Banai.GetSecret, hl] at he
      · obtain ⟨e, he⟩ := he
        simp [Banai.GetSecret, hl] at he
      · rcases hr with h1 | ⟨u2, k2, pp2, h2, _⟩
        · cases h1
        · cases h2

/-- Witness for Claim C4: on the concrete session bE the unregistered
key nokey makes GetSecret fail. -/
theorem c4_witness : ∃ e, Banai.GetSecret bE fsE0 "nokey" = Except.error e :=
  (c4 bE fsE0 "nokey").2.mpr (Or.inl rfl)

/-- Claim C5: AddText followed by GetSecret under the same identifier
succeeds and returns a Text view holding exactly the stored string, for
every session, filesystem, identifier and value. -/
theorem c5 (b : Banai) (fs : Fs) (id t : String) :
    Banai.GetSecret (Banai.AddStringSecret b fs id t).1
      (Banai.AddStringSecret b fs id t).2 id =
      Except.ok (SecretInfo.TextSecret t, (Banai.AddStringSecret b fs id t).2) := by
  simp [Banai.AddStringSecret, Banai.GetSecret, lookup_setSecret_self]

/-- Claim C6: a later Add under the same identifier fully replaces the
earlier secret: after AddText of a and then AddUserPassword of u and p,
GetSecret returns exactly the UserPassword view of u and p, with no
remnant of the Text variant. -/
theorem c6 (b : Banai) (fs : Fs) (id t u p : String) :
    Banai.GetSecret
      (Banai.AddUserPassword (Banai.AddStringSecret b fs id t).1
        (Banai.AddStringSecret b fs id t).2 id u p).1
      (Banai.AddUserPassword (Banai.AddStringSecret b fs id t).1
        (Banai.AddStringSecret b fs id t).2 id u p).2 id =
      Except.ok (SecretInfo.UserPassword u p,
        (Banai.AddUserPassword (Banai.AddStringSecret b fs id t).1
          (Banai.AddStringSecret b fs id t).2 id u p).2) := by
  simp [Banai.AddStringSecret, Banai.AddUserPassword, Banai.GetSecret,
    lookup_setSecret_self]

/-- Claim C7: Load probes existence before reading: a missing entry
under the joined path gives the not-found error, an existing readable
file gives its full content (also when empty), and an entry that exists
but whose read fails gives the read-failed error. -/
theorem c7 (b : Banai) (fs : Fs) (h : String) :
    (fsStat fs (joinPath b.stashFolder h) = none →
      Banai.Load b fs h = Except.error LoadErr.notFound) ∧
    (∀ c perm, fsStat fs (joinPath b.stashFolder h) = some (FsNode.file c true perm) →
      Banai.Load b fs h = Except.ok c) ∧
    (∀ n, fsStat fs (joinPath b.stashFolder h) = some n →
      (∃ e, fsReadFile fs (joinPath b.stashFolder h) = Except.error e) →
      Banai.Load b fs h = Except.error LoadErr.readFailed) := by
  refine ⟨fun hst => ?_, fun c perm hst => ?_, fun n hst hre => ?_⟩
  · simp [Banai.Load, hst]
  · simp [Banai.Load, fsReadFile, hst]
  · obtain ⟨e, hre⟩ := hre
    simp [Banai.Load, hst, hre]

/-- Witness for Claim C7 on a concrete stash: the entry h1 loads its
content data, a never-saved handle fails with not-found, a zero-length
entry is distinguished from a missing one by still loading, and an
unreadable entry fails with read-failed. -/
theorem c7_witness :
    Banai.Load bE fsL2 "h1" = Except.ok "data" ∧
    Banai.Load bE fsL2 "nope" = Except.error LoadErr.notFound ∧
    Banai.Load bE fsL2 "locked" = Except.error LoadErr.readFailed :=
  ⟨(c7 bE fsL2 "h1").2.1 "data" 384 rfl,
   (c7 bE fsL2 "nope").1 rfl,
   (c7 bE fsL2 "locked").2.2 (FsNode.file "x" false 384) rfl
     ⟨GoErr.ioError "permission denied", rfl⟩⟩

/-- Claim C8: constructing a session over any pre-existing filesystem
state, including leftovers of a crashed session, yields empty stores:
the secret map is empty so every GetSecret fails with the
secret-not-found error, nothing exists strictly below the stash folder
or the secret folder, and Load of any handle resolving strictly below
the stash folder fails with not-found. -/
theorem c8 (cwd : List String) (fs : Fs) :
    (∀ id, Banai.GetSecret (NewBanai cwd fs).1 (NewBanai cwd fs).2 id =
      Except.error GoErr.errSecretNotFound) ∧
    (∀ p, underPath (NewBanai cwd fs).1.stashFolder p = true →
      p ≠ (NewBanai cwd fs).1.stashFolder →
      fsStat (NewBanai cwd fs).2 p = none) ∧
    (∀ p, underPath (NewBanai cwd fs).1.secretFolder p = true →
      p ≠ (NewBanai cwd fs).1.secretFolder →
      fsStat (NewBanai cwd fs).2 p = none) ∧
    (∀ h, underPath (NewBanai cwd fs).1.stashFolder
        (joinPath (NewBanai cwd fs).1.stashFolder h) = true →
      joinPath (NewBanai cwd fs).1.stashFolder h ≠ (NewBanai cwd fs).1.stashFolder →
      Banai.Load (NewBanai cwd fs).1 (NewBanai cwd fs).2 h =
        Except.error LoadErr.notFound) := by
  have key : ∀ p, underPath (NewBanai cwd fs).1.stashFolder p = true →
      p ≠ (NewBanai cwd fs).1.stashFolder →
      fsStat (NewBanai cwd fs).2 p = none := by
    intro p hup hne
    rw [NewBanai_stashFolder] at hup hne
    rw [NewBanai_snd]
    exact setup_stat_none fs _ p hup hne
  refine ⟨fun id => rfl, key, fun p hup hne => ?_, fun h hup hne => ?_⟩
  · rw [NewBanai_secretFolder] at hup hne
    rw [NewBanai_snd]
    exact setup_stat_none_tail _ _ p hup hne
  · have hstat := key _ hup hne
    simp [Banai.Load, hstat]

/-- Witness for Claim C8: over the crashed-session leftovers fsCrash,
the new session neither finds the stale secret oldkey nor loads the
stale stash entry old. -/
theorem c8_witness :
    Banai.GetSecret (NewBanai ["w"] fsCrash).1 (NewBanai ["w"] fsCrash).2 "oldkey" =
      Except.error GoErr.errSecretNotFound ∧
    Banai.Load (NewBanai ["w"] fsCrash).1 (NewBanai ["w"] fsCrash).2 "old" =
      Except.error LoadErr.notFound :=
  ⟨(c8 ["w"] fsCrash).1 "oldkey",
   (c8 ["w"] fsCrash).2.2.2 "old" (by decide) (by decide)⟩

/-- Claim C9: AddSSHWithPrivate touches no file, returning the
filesystem unchanged, and GetSecret on a Text or UserPassword variant
writes nothing, returning the filesystem unchanged alongside the view;
the secret map is read but never written by GetSecret, so repeated
calls give identical results. -/
theorem c9 (b : Banai) (fs : Fs) (id u k pp : String) :
    (Banai.AddSSHWithPrivate b fs id u k pp).2 = fs ∧
    (∀ t, lookupSecret b.secrets id = some (secretStruct.secretText t) →
      Banai.GetSecret b fs id = Except.ok (SecretInfo.TextSecret t, fs)) ∧
    (∀ u2 p2, lookupSecret b.secrets id = some (secretStruct.secretUserPassword u2 p2) →
      Banai.GetSecret b fs id = Except.ok (SecretInfo.UserPassword u2 p2, fs)) := by
  refine ⟨rfl, fun t hl => ?_, fun u2 p2 hl => ?_⟩
  · simp [Banai.GetSecret, hl]
  · simp [Banai.GetSecret, hl]

/-- Witness for Claim C9: on the concrete session bT, registering an
SSH secret leaves the filesystem untouched and getting the stored Text
secret a returns its view with the filesystem unchanged. -/
theorem c9_witness :
    (Banai.AddSSHWithPrivate bT fsT1 "s" "x" "y" "z").2 = fsT1 ∧
    Banai.GetSecret bT fsT1 "a" = Except.ok (SecretInfo.TextSecret "t", fsT1) :=
  ⟨(c9 bT fsT1 "s" "x" "y" "z").1, (c9 bT fsT1 "a" "x" "y" "z").2.1 "t" rfl⟩

/-- Claim C10: Load never validates that its argument was issued by
Save: it joins the stash root with the raw string and returns the bytes
of whatever readable file the cleaned path denotes, including paths
with separators that escape the stash root. -/
theorem c10 (b : Banai) (fs : Fs) (h c : String) (perm : Nat)
    (hs : fsStat fs (joinPath b.stashFolder h) = some (FsNode.file c true perm)) :
    Banai.Load b fs h = Except.ok c := by
  simp [Banai.Load, fsReadFile, hs]

/-- Witness for Claim C10: after the SSH secret mykey is materialized,
the crafted handle dot-dot slash sec slash mykey resolves outside the
stash root to the key file, and Load returns the private key bytes. -/
theorem c10_witness :
    Banai.GetSecret bE fsE0 "mykey" =
      Except.ok (SecretInfo.SSHWithPrivate "bob" ["w", ".banai", "sec", "mykey"] "pp", fsE1) ∧
    Banai.Load bE fsE1 "../sec/mykey" = Except.ok "SECRETKEY" :=
  ⟨rfl, c10 bE fsE1 "../sec/mykey" "SECRETKEY" 600 rfl⟩

end Infra
